import Mathlib

/-!
Verification of `main.go` of get-the-latest-artifact-on-github-action.

The program is a single linear pipeline:
flag parsing → paginated artifact listing → sort by creation time
descending → pick index 0 → download → unzip.

The embedding below translates `main` and `printCodeInfo` from the Go
source.  Calls into the environment (GitHub API responses, HTTP results,
filesystem errors, the parsed contents of the downloaded zip) are supplied
by an `Env` record; the run is then a pure function from `Env` to an
`Outcome` together with a trace of observable events.  Deferred calls
(`defer` in Go) are collected in registration order and flushed in LIFO
order only when `main` returns normally: `log.Fatalf` calls `os.Exit`,
which terminates the process without running deferred functions, and the
model reproduces that.

`sort.Slice` is embedded relationally: Go documents that `sort.Slice`
sorts the slice by the supplied comparator but is NOT guaranteed to be
stable.  `SortSliceResult input output` states exactly that contract
(permutation + no inversion w.r.t. the comparator), and the pipeline is
parametrised by a sort function assumed to satisfy it.
-/

/-- One artifact record, from the GitHub API response
(`github.Artifact`): `GetID`, `Name`, and `GetCreatedAt` (a timestamp,
modelled as an integer; `After` on `time.Time` is strict `>`). -/
structure Artifact where
  id : Int
  name : String
  createdAt : Int
deriving DecidableEq

/-- One page returned by `Actions.ListArtifacts`: the artifact list of the
page and `resp.NextPage` (0 when there is no further page). -/
structure ListResponse where
  artifacts : List Artifact
  nextPage : Nat
deriving DecidableEq

/-- One entry of the downloaded zip archive, together with the
environment-determined results of the per-entry operations in the
extraction loop: `file.Open` (`openErr`), `os.Create` (`createErr`), and
`io.Copy(dst, src)` (`written` is whatever the copy actually transferred
— the full entry on success, a truncated prefix on error — and `copyErr`
is the error value the code receives from `io.Copy`). -/
structure ZipEntry where
  name : String
  openErr : Option String
  createErr : Option String
  written : String
  copyErr : Option String
deriving DecidableEq

/-- Observable events of a run: network requests, file operations, and
the resource releases performed by deferred calls. `sortSelect` marks
entry into the selection stage (the `sort.Slice` call followed by
`artifacts[0]`). -/
inductive Event where
  | listRequest (page perPage : Nat)
  | sortSelect
  | downloadRequest (id : Int)
  | httpGet (url : String)
  | createTemp
  | closeBody
  | closeTemp
  | removeTemp
  | openZip
  | closeZip
  | openEntry (name : String)
  | createDst (name : String)
  | writeDst (name : String) (content : String)
  | closeSrc (name : String)
  | closeDst (name : String)
deriving DecidableEq

/-- How the process terminates.  `usageExit` is the missing-parameter
path (`os.Exit(1)` after printing to stderr); `fatal` is `log.Fatalf`
(print to stderr, then `os.Exit(1)`, skipping deferred calls);
`panicIndexOutOfRange` is the uncontrolled runtime fault raised by
`artifacts[0]` on an empty slice (Go exits with status 2);
`noResponse` means the environment supplied fewer listing responses than
the program requested — execution beyond that point is not modelled. -/
inductive Outcome where
  | usageExit (stderr : List String)
  | fatal (msg : String)
  | panicIndexOutOfRange
  | success
  | noResponse (page : Nat)
deriving DecidableEq

/-- Exit status of each outcome (`none` for the unmodelled
`noResponse` case, which does not terminate the process). -/
def exitCode : Outcome → Option Nat
  | Outcome.usageExit _ => some 1
  | Outcome.fatal _ => some 1
  | Outcome.panicIndexOutOfRange => some 2
  | Outcome.success => some 0
  | Outcome.noResponse _ => none

/-- The environment of one run: the parsed flag values, the build-time
metadata (`REVISION`, `RELEASE_FLAG`, embedded by ldflags), and the
results of every external call the program makes, in program order.
`listResponses` are the successive results of `Actions.ListArtifacts`
(consumed one per request); `downloadUrl` is the result of
`Actions.DownloadArtifact`; `httpGetErr`, `createTempErr`, `copyBodyErr`
are the error results of `http.Get`, `os.CreateTemp` and
`io.Copy(temp, resp.Body)`; `zipOpen` is what `zip.OpenReader` yields for
the completed temp file. -/
structure Env where
  owner : String
  repo : String
  revision : String
  releaseFlag : String
  listResponses : List (Except String ListResponse)
  downloadUrl : Except String String
  httpGetErr : Option String
  createTempErr : Option String
  copyBodyErr : Option String
  zipOpen : Except String (List ZipEntry)

/-- VERSION constant of the source. -/
def VERSION : String := "0.0.1"

/-- REPOSITORY constant of the source. -/
def REPOSITORY : String :=
  "https://github.com/coop-sapporo/get-the-latest-artifact-on-github-action"

/-- MAX_NUMBER_PER_PAGE constant of the source (the documented GitHub
pagination maximum). -/
def MAX_NUMBER_PER_PAGE : Nat := 100

/-- `printCodeInfo` of the source: the lines written to stderr.
`isRelease := RELEASE_FLAG != ""` toggles the `-dev` suffix and the tag
URL line. -/
def printCodeInfo (revision releaseFlag : String) : List String :=
  let t0 := ["==== CODE INFOMATION ===="]
  let t1 := t0 ++ [if releaseFlag ≠ "" then "VERSION: " ++ VERSION
                   else "VERSION: " ++ VERSION ++ "-dev"]
  let t2 := t1 ++ ["REVISION: " ++ revision]
  let t3 := t2 ++ ["URL(revision): " ++ REPOSITORY ++ "/commit/" ++ revision]
  if releaseFlag ≠ "" then
    t3 ++ ["URL(tag): " ++ REPOSITORY ++ "/releases/tag/v" ++ VERSION]
  else t3

/-- Output of `flag.PrintDefaults()` for the two registered string flags
(written to stderr, the default output of the flag package). -/
def flagUsageLines : List String :=
  ["  -owner string", "    \tRepository owner", "  -repo string", "    \tRepository"]

/-- Everything the usage path writes to stderr: the required-parameters
message, `flag.PrintDefaults()`, a blank line, then `printCodeInfo`. -/
def usageStderr (env : Env) : List String :=
  ["Parameters owner, repo are required"] ++ flagUsageLines ++ [""]
    ++ printCodeInfo env.revision env.releaseFlag

/-- Result of the artifact-listing loop. -/
inductive ListOutcome where
  | ok (artifacts : List Artifact)
  | fatal (page : Nat) (err : String)
  | noResponse (page : Nat)
deriving DecidableEq

/-- The listing loop of `main` (lines 62–76): starting at page 1, request
a page with `PerPage: MAX_NUMBER_PER_PAGE`, append the returned artifacts,
set `page := resp.NextPage`, stop when it is 0.  A request error is fatal,
reporting the page number.  The environment supplies the successive
responses; each loop iteration consumes one and logs the request it
issued. -/
def listLoop : Nat → List (Except String ListResponse) → List Artifact →
    List Event → ListOutcome × List Event
  | page, [], _, trace => (ListOutcome.noResponse page, trace)
  | page, r :: rest, acc, trace =>
    let trace1 := trace ++ [Event.listRequest page MAX_NUMBER_PER_PAGE]
    match r with
    | Except.error e => (ListOutcome.fatal page e, trace1)
    | Except.ok resp =>
      let acc1 := acc ++ resp.artifacts
      if resp.nextPage = 0 then (ListOutcome.ok acc1, trace1)
      else listLoop resp.nextPage rest acc1 trace1

/-- The extraction loop of `main` (lines 120–134).  For each entry:
`file.Open` (fatal on error), `defer src.Close()`, `os.Create(file.Name)`
(fatal on error), `defer dst.Close()`, then `io.Copy(dst, src)` whose
return values are discarded.  Returns the fatal message (if any), the
trace, and the accumulated defer stack (in registration order; each
element is the event list of one deferred call). -/
def extractEntries : List ZipEntry → List Event → List (List Event) →
    Option String × List Event × List (List Event)
  | [], trace, defers => (none, trace, defers)
  | e :: rest, trace, defers =>
    let trace1 := trace ++ [Event.openEntry e.name]
    match e.openErr with
    | some err => (some ("unable to open src file. detail: " ++ err), trace1, defers)
    | none =>
      let defers1 := defers ++ [[Event.closeSrc e.name]]
      let trace2 := trace1 ++ [Event.createDst e.name]
      match e.createErr with
      | some err => (some ("unable to create dst file. detail: " ++ err), trace2, defers1)
      | none =>
        let defers2 := defers1 ++ [[Event.closeDst e.name]]
        let trace3 := trace2 ++ [Event.writeDst e.name e.written]
        extractEntries rest trace3 defers2

/-- `main` of the source, as a function of the environment and of the
sort function standing for `sort.Slice` (lines 79–81).  Returns the
outcome and the event trace.  Deferred calls are pushed onto `defers` in
registration order and flushed (reversed, concatenated) only on the
normal-return path; every `log.Fatalf` path returns without flushing,
because `os.Exit` skips deferred functions. -/
def runMain (sortFn : List Artifact → List Artifact) (env : Env) :
    Outcome × List Event :=
  if env.owner = "" ∨ env.repo = "" then
    (Outcome.usageExit (usageStderr env), [])
  else
    match listLoop 1 env.listResponses [] [] with
    | (ListOutcome.noResponse page, trace) => (Outcome.noResponse page, trace)
    | (ListOutcome.fatal page e, trace) =>
      (Outcome.fatal ("unable to list artifacts. pqge: " ++ toString page
        ++ ", detail: " ++ e), trace)
    | (ListOutcome.ok artifacts, trace0) =>
      let trace1 := trace0 ++ [Event.sortSelect]
      match sortFn artifacts with
      | [] => (Outcome.panicIndexOutOfRange, trace1)
      | artifact :: _ =>
        let trace2 := trace1 ++ [Event.downloadRequest artifact.id]
        match env.downloadUrl with
        | Except.error e =>
          (Outcome.fatal ("unable to get download url. detail: " ++ e), trace2)
        | Except.ok url =>
          let trace3 := trace2 ++ [Event.httpGet url]
          match env.httpGetErr with
          | some e => (Outcome.fatal ("unable to get artifact. detail: " ++ e), trace3)
          | none =>
            let defers1 : List (List Event) := [[Event.closeBody]]
            let trace4 := trace3 ++ [Event.createTemp]
            match env.createTempErr with
            | some e =>
              (Outcome.fatal ("unable to create temp file. detail: " ++ e), trace4)
            | none =>
              let defers2 := defers1 ++ [[Event.closeTemp, Event.removeTemp]]
              match env.copyBodyErr with
              | some e =>
                (Outcome.fatal ("unable to copy response body to file. detail: " ++ e),
                  trace4)
              | none =>
                let trace5 := trace4 ++ [Event.closeTemp, Event.openZip]
                match env.zipOpen with
                | Except.error e =>
                  (Outcome.fatal ("unable to open zip reader. detail: " ++ e), trace5)
                | Except.ok entries =>
                  let defers3 := defers2 ++ [[Event.closeZip]]
                  match extractEntries entries trace5 defers3 with
                  | (some msg, trace6, _) => (Outcome.fatal msg, trace6)
                  | (none, trace6, defers4) =>
                    (Outcome.success, trace6 ++ defers4.reverse.flatten)

/-- The comparator of the `sort.Slice` call (line 80):
`artifacts[i].GetCreatedAt().After(artifacts[j].GetCreatedAt().Time)`,
i.e. strictly later creation time. -/
def createdAfter (a b : Artifact) : Prop := b.createdAt < a.createdAt

instance (a b : Artifact) : Decidable (createdAfter a b) :=
  Int.decLt b.createdAt a.createdAt

/-- The documented contract of `sort.Slice` with the comparator above:
the output is a permutation of the input and contains no inversion
(no element strictly later than an earlier one).  Stability is NOT part
of the contract. -/
def SortSliceResult (input output : List Artifact) : Prop :=
  output.Perm input ∧ output.Pairwise (fun a b => ¬ createdAfter b a)

/-- A sort function implementing the `sort.Slice` contract on every
input. -/
def SortSliceImpl (f : List Artifact → List Artifact) : Prop :=
  ∀ l, SortSliceResult l (f l)

/-- Selection as performed by `main` (lines 79–85): sort, then take
index 0 (as an `Option`, mirroring that index 0 exists only for nonempty
results). -/
def theNewestArtifact (f : List Artifact → List Artifact)
    (arts : List Artifact) : Option Artifact :=
  (f arts).head?

/-- Descending order on creation time, non-strictly: the relation in
whose terms a `sort.Slice` output with the `createdAfter` comparator is
sorted. -/
def createdGE (a b : Artifact) : Prop := b.createdAt ≤ a.createdAt

instance (a b : Artifact) : Decidable (createdGE a b) :=
  Int.decLe b.createdAt a.createdAt

instance : IsTotal Artifact createdGE :=
  ⟨fun a b => Int.le_total b.createdAt a.createdAt⟩

instance : IsTrans Artifact createdGE :=
  ⟨fun _ _ _ h1 h2 => le_trans h2 h1⟩

/-- A reference implementation of the `sort.Slice` contract, used to
instantiate theorems at concrete inputs: insertion sort by descending
creation time. -/
def refSort : List Artifact → List Artifact := List.insertionSort createdGE

/-- A terminating page-cursor chain: every response but the last carries a
nonzero next page, and the last one carries 0. -/
def chainOK : List ListResponse → Prop
  | [] => False
  | [r] => r.nextPage = 0
  | r :: s :: rest => r.nextPage ≠ 0 ∧ chainOK (s :: rest)

/-- The listing requests the loop issues when fed the given responses from
the given starting page: every request uses `MAX_NUMBER_PER_PAGE`, and
each subsequent request uses the previous response's next-page value. -/
def expectedRequests : Nat → List ListResponse → List Event
  | _, [] => []
  | page, r :: rest =>
    Event.listRequest page MAX_NUMBER_PER_PAGE ::
      (if r.nextPage = 0 then [] else expectedRequests r.nextPage rest)

/-- The page cursor reached after consuming the given responses, starting
from `page`. -/
def pageAfter : Nat → List ListResponse → Nat
  | page, [] => page
  | _, r :: rest => pageAfter r.nextPage rest

/-- Recognise a listing request event. -/
def isListRequest : Event → Bool
  | Event.listRequest _ _ => true
  | _ => false

/-- The files written by extraction, in order: name and bytes of every
`writeDst` event of a trace. -/
def writesOf (trace : List Event) : List (String × String) :=
  trace.filterMap fun ev =>
    match ev with
    | Event.writeDst n c => some (n, c)
    | _ => none

/-- The first artifact of a collection holding its maximum creation
timestamp (the artifact a stable descending sort would put at index 0). -/
def firstMaxTs (l : List Artifact) : Option Artifact :=
  l.find? fun a => l.all fun b => decide (b.createdAt ≤ a.createdAt)

/-- Insertion of an element into a sorted list, placing it before the
first strictly-less element: the final position an element reaches in the
insertion sort of Go's sort package (`insertionSort` in
`src/sort/sort.go`, which moves the element left while `Less` holds). -/
def goOrderedInsert (less : Artifact → Artifact → Bool) (x : Artifact) :
    List Artifact → List Artifact
  | [] => [x]
  | y :: ys => if less x y then x :: y :: ys else y :: goOrderedInsert less x ys

/-- Insertion sort as performed by Go's sort package: elements are taken
in slice order and inserted into the sorted prefix. -/
def goInsertionSort (less : Artifact → Artifact → Bool)
    (l : List Artifact) : List Artifact :=
  l.foldl (fun acc x => goOrderedInsert less x acc) []

/-- Placeholder artifact for out-of-range array reads in the Go sort
model (never actually read on valid indices). -/
def dfltArtifact : Artifact := ⟨0, "", 0⟩

/-- The single Shell-sort pass with gap 6 that Go's `quickSort`
(`src/sort/sort.go`, Go ≤ 1.18 — the Go generation matching the
pinned go-github v43 dependency) runs on every slice of length ≤ 12
before insertion sort: for i from 6 upward, swap elements i and i−6 when
`Less(i, i−6)`. -/
def shellPass6 (less : Artifact → Artifact → Bool)
    (a : Array Artifact) : Array Artifact :=
  (List.range a.size).foldl
    (fun arr i =>
      if 6 ≤ i then
        let x := arr.getD i dfltArtifact
        let y := arr.getD (i - 6) dfltArtifact
        if less x y then (arr.setD i y).setD (i - 6) x else arr
      else arr)
    a

/-- `sort.Slice` of Go ≤ 1.18 on slices of length at most 12 (the branch
of `quickSort` taken without any quicksort partitioning): the gap-6 Shell
pass followed by insertion sort, with the comparator of line 80. -/
def goSortSliceSmall (l : List Artifact) : List Artifact :=
  if l.length ≤ 1 then l
  else goInsertionSort (fun a b => decide (createdAfter a b))
    (shellPass6 (fun a b => decide (createdAfter a b)) l.toArray).toList

/-! Concrete data used to instantiate the theorems below. -/

/-- Two-page listing: page 1 returns one artifact and next page 2, page 2
returns one artifact and no next page. -/
def aw1 : Artifact := ⟨1, "w1", 10⟩

/-- Second artifact of the two-page listing example. -/
def aw2 : Artifact := ⟨2, "w2", 20⟩

/-- The two listing responses of the two-page example. -/
def rs2w : List ListResponse := [⟨[aw1], 2⟩, ⟨[aw2], 0⟩]

/-- Environment with the owner flag empty. -/
def env1w : Env :=
  { owner := "", repo := "r", revision := "deadbeef", releaseFlag := "",
    listResponses := [], downloadUrl := Except.error "unused",
    httpGetErr := none, createTempErr := none, copyBodyErr := none,
    zipOpen := Except.error "unused" }

/-- Environment whose second listing request fails, while a third
response would still be available. -/
def env3w : Env :=
  { owner := "o", repo := "r", revision := "", releaseFlag := "",
    listResponses := [Except.ok ⟨[⟨1, "p1", 3⟩], 2⟩, Except.error "net down",
                      Except.ok ⟨[⟨2, "p3", 4⟩], 0⟩],
    downloadUrl := Except.error "unused", httpGetErr := none,
    createTempErr := none, copyBodyErr := none, zipOpen := Except.error "unused" }

/-- A collection of two artifacts with distinct creation timestamps,
listed oldest first. -/
def l4w : List Artifact := [⟨1, "older", 3⟩, ⟨2, "newer", 7⟩]

/-- A collection of two artifacts tied at the maximum timestamp. -/
def l5w : List Artifact := [⟨1, "tieA", 7⟩, ⟨2, "tieB", 7⟩]

/-- Eight artifacts whose maximum timestamp 9 occurs at positions 2 and 7
(enumeration order); all others have timestamp 0. -/
def arts8 : List Artifact :=
  [⟨0, "", 0⟩, ⟨1, "", 0⟩, ⟨2, "", 9⟩, ⟨3, "", 0⟩,
   ⟨4, "", 0⟩, ⟨5, "", 0⟩, ⟨6, "", 0⟩, ⟨7, "", 9⟩]

/-- A descending-sorted permutation of `arts8` whose head is the
later-encountered maximum (artifact 7), not the first-encountered one
(artifact 2): this is exactly what `goSortSliceSmall` produces. -/
def out8 : List Artifact :=
  [⟨7, "", 9⟩, ⟨2, "", 9⟩, ⟨0, "", 0⟩, ⟨3, "", 0⟩,
   ⟨4, "", 0⟩, ⟨5, "", 0⟩, ⟨6, "", 0⟩, ⟨1, "", 0⟩]

/-- Environment with one artifact page that is empty: enumeration
completes with an empty collection. -/
def env6 : Env :=
  { owner := "o", repo := "r", revision := "", releaseFlag := "",
    listResponses := [Except.ok ⟨[], 0⟩],
    downloadUrl := Except.error "unused", httpGetErr := none,
    createTempErr := none, copyBodyErr := none, zipOpen := Except.error "unused" }

/-- Environment in which everything succeeds up to the creation of the
temp file and then `io.Copy(temp, resp.Body)` fails. -/
def env7 : Env :=
  { owner := "o", repo := "r", revision := "", releaseFlag := "",
    listResponses := [Except.ok ⟨[⟨1, "art", 5⟩], 0⟩],
    downloadUrl := Except.ok "https://example.invalid/archive.zip",
    httpGetErr := none, createTempErr := none, copyBodyErr := some "io boom",
    zipOpen := Except.error "unused" }

/-- Environment of a fully successful run extracting one file. -/
def env7w : Env :=
  { owner := "o", repo := "r", revision := "", releaseFlag := "",
    listResponses := [Except.ok ⟨[⟨1, "art", 5⟩], 0⟩],
    downloadUrl := Except.ok "https://example.invalid/archive.zip",
    httpGetErr := none, createTempErr := none, copyBodyErr := none,
    zipOpen := Except.ok [⟨"f.txt", none, none, "data", none⟩] }

/-- Environment of a fully successful run whose downloaded archive
contains exactly `a.txt` ("hello") and `b/c.txt` ("world"). -/
def env8 : Env :=
  { owner := "o", repo := "r", revision := "", releaseFlag := "",
    listResponses := [Except.ok ⟨[⟨1, "art", 5⟩], 0⟩],
    downloadUrl := Except.ok "https://example.invalid/archive.zip",
    httpGetErr := none, createTempErr := none, copyBodyErr := none,
    zipOpen := Except.ok [⟨"a.txt", none, none, "hello", none⟩,
                          ⟨"b/c.txt", none, none, "world", none⟩] }

/-- Family of environments that reach extraction: everything up to
`zip.OpenReader` succeeds and the archive parses to the given entries. -/
def envWithEntries (entries : List ZipEntry) : Env :=
  { owner := "o", repo := "r", revision := "", releaseFlag := "",
    listResponses := [Except.ok ⟨[⟨1, "art", 5⟩], 0⟩],
    downloadUrl := Except.ok "https://example.invalid/archive.zip",
    httpGetErr := none, createTempErr := none, copyBodyErr := none,
    zipOpen := Except.ok entries }

/-- Two zip entries; the copy of the first fails midway (three of five
bytes written, error discarded by the code), the second succeeds. -/
def entries10 : List ZipEntry :=
  [⟨"a.txt", none, none, "hel", some "unexpected EOF"⟩,
   ⟨"b.txt", none, none, "world", none⟩]

/-- The trace accumulated by `runMain` on `envWithEntries` just before
the extraction loop starts. -/
def preExtractTrace : List Event :=
  [Event.listRequest 1 100, Event.sortSelect, Event.downloadRequest 1,
   Event.httpGet "https://example.invalid/archive.zip", Event.createTemp,
   Event.closeTemp, Event.openZip]

/-- The defer stack registered by `runMain` just before the extraction
loop starts: the response-body close, the temp-file close-and-remove, and
the zip-reader close. -/
def preExtractDefers : List (List Event) :=
  [[Event.closeBody], [Event.closeTemp, Event.removeTemp], [Event.closeZip]]

/-! Theorems. -/

theorem refSort_ok : SortSliceImpl refSort := by
  intro l
  refine ⟨List.perm_insertionSort createdGE l, ?_⟩
  exact (List.sorted_insertionSort createdGE l).imp fun hab => not_lt.mpr hab

theorem listLoop_step_ok (page : Nat) (r : ListResponse)
    (rest : List (Except String ListResponse)) (acc : List Artifact)
    (trace : List Event) (h : r.nextPage ≠ 0) :
    listLoop page (Except.ok r :: rest) acc trace =
      listLoop r.nextPage rest (acc ++ r.artifacts)
        (trace ++ [Event.listRequest page MAX_NUMBER_PER_PAGE]) := by
  simp [listLoop, h]

theorem listLoop_last_ok (page : Nat) (r : ListResponse)
    (rest : List (Except String ListResponse)) (acc : List Artifact)
    (trace : List Event) (h : r.nextPage = 0) :
    listLoop page (Except.ok r :: rest) acc trace =
      (ListOutcome.ok (acc ++ r.artifacts),
        trace ++ [Event.listRequest page MAX_NUMBER_PER_PAGE]) := by
  simp [listLoop, h]

theorem listLoop_step_err (page : Nat) (e : String)
    (rest : List (Except String ListResponse)) (acc : List Artifact)
    (trace : List Event) :
    listLoop page (Except.error e :: rest) acc trace =
      (ListOutcome.fatal page e,
        trace ++ [Event.listRequest page MAX_NUMBER_PER_PAGE]) := by
  simp [listLoop]

theorem listLoop_ok_of_chainOK (rs : List ListResponse) :
    ∀ (page : Nat) (acc : List Artifact) (trace : List Event), chainOK rs →
      listLoop page (rs.map Except.ok) acc trace =
        (ListOutcome.ok (acc ++ (rs.map ListResponse.artifacts).flatten),
          trace ++ expectedRequests page rs) := by
  induction rs with
  | nil => intro page acc trace h; exact absurd h (by simp [chainOK])
  | cons r rest ih =>
    intro page acc trace h
    cases rest with
    | nil =>
      have h0 : r.nextPage = 0 := h
      rw [List.map_cons, List.map_nil, listLoop_last_ok page r [] acc trace h0]
      simp [expectedRequests, h0]
    | cons s rest2 =>
      obtain ⟨h1, h2⟩ := h
      rw [List.map_cons, listLoop_step_ok page r _ acc trace h1,
        ih r.nextPage (acc ++ r.artifacts) _ h2]
      simp [expectedRequests, h1, List.append_assoc]

/-- C2: for every sequence of paginated listing responses whose next-page
cursor chain reaches 0, the accumulated artifact collection equals the
concatenation of the pages' artifact lists in receipt order, and the
requests issued carry page size `MAX_NUMBER_PER_PAGE` (100), start at
page 1, and each subsequent request uses the previous response's
next-page value (this is what `expectedRequests` builds). -/
theorem c2_pagination (rs : List ListResponse) (h : chainOK rs) :
    listLoop 1 (rs.map Except.ok) [] [] =
      (ListOutcome.ok (rs.map ListResponse.artifacts).flatten,
        expectedRequests 1 rs) := by
  simpa using listLoop_ok_of_chainOK rs 1 [] [] h

/-- Witness for C2: a concrete two-page listing. -/
theorem c2_pagination_witness :
    chainOK rs2w ∧
    listLoop 1 (rs2w.map Except.ok) [] [] =
      (ListOutcome.ok [aw1, aw2],
        [Event.listRequest 1 100, Event.listRequest 2 100]) :=
  ⟨⟨by decide, rfl⟩, (c2_pagination rs2w ⟨by decide, rfl⟩).trans (by decide)⟩

/-- C1: with the owner flag or the repo flag empty, the run exits with
status 1, its stderr output carries the usage message and the code
information block, and the event trace is empty — no network request is
issued. -/
theorem c1_missing_params_usage (f : List Artifact → List Artifact)
    (env : Env) (h : env.owner = "" ∨ env.repo = "") :
    runMain f env = (Outcome.usageExit (usageStderr env), []) ∧
    exitCode (runMain f env).1 = some 1 ∧
    "Parameters owner, repo are required" ∈ usageStderr env ∧
    ∀ s ∈ printCodeInfo env.revision env.releaseFlag, s ∈ usageStderr env := by
  have hrun : runMain f env = (Outcome.usageExit (usageStderr env), []) := by
    unfold runMain
    rw [if_pos h]
  refine ⟨hrun, by rw [hrun]; rfl, by simp [usageStderr], ?_⟩
  intro s hs
  simp [usageStderr, hs]

/-- Witness for C1: the empty-owner environment. -/
theorem c1_missing_params_usage_witness :
    runMain refSort env1w = (Outcome.usageExit (usageStderr env1w), []) ∧
    exitCode (runMain refSort env1w).1 = some 1 :=
  have h := c1_missing_params_usage refSort env1w (Or.inl rfl)
  ⟨h.1, h.2.1⟩

/-- C9: the code-information block contains the version with a `-dev`
suffix and no tag URL line when the release flag is empty, and the plain
version plus a tag URL line ending in `/releases/tag/v` followed by the
version when the release flag is non-empty (the exact line lists make
both facts explicit). -/
theorem c9_code_info_lines (revision flag : String) :
    (flag = "" → printCodeInfo revision flag =
      ["==== CODE INFOMATION ====",
       "VERSION: " ++ VERSION ++ "-dev",
       "REVISION: " ++ revision,
       "URL(revision): " ++ REPOSITORY ++ "/commit/" ++ revision]) ∧
    (flag ≠ "" → printCodeInfo revision flag =
      ["==== CODE INFOMATION ====",
       "VERSION: " ++ VERSION,
       "REVISION: " ++ revision,
       "URL(revision): " ++ REPOSITORY ++ "/commit/" ++ revision,
       "URL(tag): " ++ REPOSITORY ++ "/releases/tag/v" ++ VERSION]) := by
  constructor
  · intro h
    subst h
    simp [printCodeInfo]
  · intro h
    simp [printCodeInfo, h]

/-- Witness for C9: both release-flag branches at concrete values. -/
theorem c9_code_info_lines_witness :
    printCodeInfo "abc123" "" =
      ["==== CODE INFOMATION ====", "VERSION: 0.0.1-dev", "REVISION: abc123",
       "URL(revision): https://github.com/coop-sapporo/get-the-latest-artifact-on-github-action/commit/abc123"] ∧
    printCodeInfo "abc123" "1" =
      ["==== CODE INFOMATION ====", "VERSION: 0.0.1", "REVISION: abc123",
       "URL(revision): https://github.com/coop-sapporo/get-the-latest-artifact-on-github-action/commit/abc123",
       "URL(tag): https://github.com/coop-sapporo/get-the-latest-artifact-on-github-action/releases/tag/v0.0.1"] :=
  ⟨((c9_code_info_lines "abc123" "").1 rfl).trans (by decide),
   ((c9_code_info_lines "abc123" "1").2 (by decide)).trans (by decide)⟩

theorem listLoop_error_fatal (pre : List ListResponse) :
    ∀ (page : Nat) (acc : List Artifact) (trace : List Event) (e : String)
      (rest : List (Except String ListResponse)),
      (∀ r ∈ pre, r.nextPage ≠ 0) →
      listLoop page (pre.map Except.ok ++ Except.error e :: rest) acc trace =
        (ListOutcome.fatal (pageAfter page pre) e,
          trace ++ expectedRequests page pre
            ++ [Event.listRequest (pageAfter page pre) MAX_NUMBER_PER_PAGE]) := by
  induction pre with
  | nil =>
    intro page acc trace e rest _
    rw [List.map_nil, List.nil_append, listLoop_step_err]
    simp [pageAfter, expectedRequests]
  | cons r pre2 ih =>
    intro page acc trace e rest h
    have h1 : r.nextPage ≠ 0 := h r (by simp)
    rw [List.map_cons, List.cons_append, listLoop_step_ok page r _ acc trace h1,
      ih r.nextPage (acc ++ r.artifacts) _ e rest (fun x hx => h x (by simp [hx]))]
    simp [expectedRequests, pageAfter, h1, List.append_assoc]

theorem expectedRequests_all_listRequest (rs : List ListResponse) :
    ∀ (page : Nat) (ev : Event),
      ev ∈ expectedRequests page rs → isListRequest ev = true := by
  induction rs with
  | nil => intro page ev h; simp [expectedRequests] at h
  | cons r rest ih =>
    intro page ev h
    simp only [expectedRequests, List.mem_cons] at h
    rcases h with h | h
    · subst h; rfl
    · by_cases h0 : r.nextPage = 0
      · simp [h0] at h
      · exact ih r.nextPage ev (by simpa [h0] using h)

theorem expectedRequests_length (rs : List ListResponse) :
    ∀ page : Nat, (∀ r ∈ rs, r.nextPage ≠ 0) →
      (expectedRequests page rs).length = rs.length := by
  induction rs with
  | nil => intro page _; rfl
  | cons r rest ih =>
    intro page h
    have h1 : r.nextPage ≠ 0 := h r (by simp)
    simp [expectedRequests, h1, ih r.nextPage (fun x hx => h x (by simp [hx]))]

/-- C3: if a listing request fails, the run aborts with the `log.Fatalf`
message naming the failing page and the underlying error ("pqge" is the
source's own typo), the trace carries exactly the listing requests up to
and including the failing one — nothing further is requested — and no
selection, download, or extraction event occurs (every trace event is a
listing request). -/
theorem c3_listing_error_fatal (f : List Artifact → List Artifact)
    (env : Env) (pre : List ListResponse) (e : String)
    (rest : List (Except String ListResponse))
    (h1 : env.owner ≠ "") (h2 : env.repo ≠ "")
    (h3 : env.listResponses = pre.map Except.ok ++ Except.error e :: rest)
    (h4 : ∀ r ∈ pre, r.nextPage ≠ 0) :
    runMain f env =
      (Outcome.fatal ("unable to list artifacts. pqge: "
          ++ toString (pageAfter 1 pre) ++ ", detail: " ++ e),
        expectedRequests 1 pre
          ++ [Event.listRequest (pageAfter 1 pre) MAX_NUMBER_PER_PAGE]) ∧
    (runMain f env).2.length = pre.length + 1 ∧
    (∀ ev ∈ (runMain f env).2, isListRequest ev = true) ∧
    exitCode (runMain f env).1 = some 1 := by
  have hcond : ¬ (env.owner = "" ∨ env.repo = "") := by
    rintro (h | h)
    · exact h1 h
    · exact h2 h
  have hrun : runMain f env =
      (Outcome.fatal ("unable to list artifacts. pqge: "
          ++ toString (pageAfter 1 pre) ++ ", detail: " ++ e),
        expectedRequests 1 pre
          ++ [Event.listRequest (pageAfter 1 pre) MAX_NUMBER_PER_PAGE]) := by
    unfold runMain
    rw [if_neg hcond, h3, listLoop_error_fatal pre 1 [] [] e rest h4]
    simp
  refine ⟨hrun, ?_, ?_, by rw [hrun]; rfl⟩
  · rw [hrun]
    simp [expectedRequests_length pre 1 h4]
  · intro ev hev
    rw [hrun] at hev
    rcases List.mem_append.mp hev with h | h
    · exact expectedRequests_all_listRequest pre 1 ev h
    · rw [List.mem_singleton.mp h]; rfl

/-- Witness for C3: the second of three listing responses is an error;
the run stops after two requests even though a third response exists. -/
theorem c3_listing_error_fatal_witness :
    runMain refSort env3w =
      (Outcome.fatal "unable to list artifacts. pqge: 2, detail: net down",
        [Event.listRequest 1 100, Event.listRequest 2 100]) ∧
    (runMain refSort env3w).2.length = 2 :=
  have h := c3_listing_error_fatal refSort env3w [⟨[⟨1, "p1", 3⟩], 2⟩]
    "net down" [Except.ok ⟨[⟨2, "p3", 4⟩], 0⟩]
    (by decide) (by decide) rfl (by decide)
  ⟨h.1.trans (by decide), h.2.1⟩

theorem sortSliceResult_head_max (input output : List Artifact)
    (hs : SortSliceResult input output) (m : Artifact) (t : List Artifact)
    (hout : output = m :: t) :
    m ∈ input ∧ ∀ a ∈ input, a.createdAt ≤ m.createdAt := by
  obtain ⟨hp, hpw⟩ := hs
  subst hout
  refine ⟨hp.mem_iff.mp (List.mem_cons_self m t), ?_⟩
  intro a ha
  rcases List.mem_cons.mp (hp.mem_iff.mpr ha) with h | h
  · subst h; exact le_refl _
  · exact not_lt.mp ((List.pairwise_cons.mp hpw).1 a h)

/-- C4: for a non-empty artifact collection with pairwise distinct
creation timestamps, selection — any `sort.Slice`-contract sort followed
by taking index 0 — returns the artifact with the maximum creation
timestamp, for every permutation `input` of the collection `orig`. -/
theorem c4_selection_newest (f : List Artifact → List Artifact)
    (hf : SortSliceImpl f) (orig input : List Artifact)
    (hperm : input.Perm orig) (hne : orig ≠ [])
    (hdist : orig.Pairwise fun a b => a.createdAt ≠ b.createdAt) :
    ∃ m, theNewestArtifact f input = some m ∧ m ∈ orig ∧
      (∀ a ∈ orig, a.createdAt ≤ m.createdAt) ∧
      ∀ b ∈ orig, (∀ a ∈ orig, a.createdAt ≤ b.createdAt) → b = m := by
  have hsr := hf input
  have hpo : (f input).Perm orig := hsr.1.trans hperm
  cases hout : f input with
  | nil =>
    rw [hout] at hpo
    exact absurd (hpo.symm.eq_nil) hne
  | cons m t =>
    obtain ⟨hm, hmax⟩ := sortSliceResult_head_max input (f input) hsr m t hout
    have hm2 : m ∈ orig := hperm.mem_iff.mp hm
    have hmax2 : ∀ a ∈ orig, a.createdAt ≤ m.createdAt := fun a ha =>
      hmax a (hperm.mem_iff.mpr ha)
    refine ⟨m, by simp [theNewestArtifact, hout], hm2, hmax2, ?_⟩
    intro b hb hbmax
    by_contra hne2
    have hts : b.createdAt = m.createdAt :=
      le_antisymm (hmax2 b hb) (hbmax m hm2)
    exact hdist.forall (fun x y hxy => hxy.symm) hb hm2 hne2 hts

/-- Witness for C4: two distinct-timestamp artifacts, oldest listed
first; selection returns the newer one. -/
theorem c4_selection_newest_witness :
    ∃ m, theNewestArtifact refSort l4w = some m ∧ m ∈ l4w ∧
      (∀ a ∈ l4w, a.createdAt ≤ m.createdAt) ∧
      ∀ b ∈ l4w, (∀ a ∈ l4w, a.createdAt ≤ b.createdAt) → b = m :=
  c4_selection_newest refSort refSort_ok l4w l4w (List.Perm.refl l4w)
    (by decide) (by decide)

/-- Counterexample to C5: `arts8` holds two artifacts tied at the maximum
timestamp (positions 2 and 7), `out8` is a `sort.Slice`-contract-compliant
result — and the one Go's own sort (`goSortSliceSmall`, the
`sort.Slice` code path for slices of length ≤ 12 in the Go generation of
this repository's dependencies) actually produces — yet its head is the
later-encountered tied artifact 7, not the first-encountered artifact 2:
`sort.Slice` is not stable, so selection on ties is not determined by
enumeration order.  The final conjunct is the formal negation of the
claim. -/
theorem c5_tie_counterexample :
    SortSliceResult arts8 out8 ∧
    goSortSliceSmall arts8 = out8 ∧
    (arts8.filter fun a =>
      decide (∀ b ∈ arts8, b.createdAt ≤ a.createdAt)).length = 2 ∧
    firstMaxTs arts8 = some ⟨2, "", 9⟩ ∧
    out8.head? = some ⟨7, "", 9⟩ ∧
    (⟨7, "", 9⟩ : Artifact) ≠ ⟨2, "", 9⟩ ∧
    ¬ (∀ (input output : List Artifact),
        2 ≤ (input.filter fun a =>
          decide (∀ b ∈ input, b.createdAt ≤ a.createdAt)).length →
        SortSliceResult input output → output.head? = firstMaxTs input) := by
  refine ⟨⟨by decide, by decide⟩, by decide, by decide, by decide, rfl,
    by decide, fun hclaim => ?_⟩
  have h := hclaim arts8 out8 (by decide) ⟨by decide, by decide⟩
  rw [(by decide : firstMaxTs arts8 = some ⟨2, "", 9⟩)] at h
  exact absurd h (by decide)

/-- C5 as amended: when two or more artifacts share the maximum creation
timestamp, selection still returns an artifact bearing the maximum
timestamp, but which of the tied artifacts it is remains unspecified
(`sort.Slice` is not stable). -/
theorem c5_tie_selection_max (f : List Artifact → List Artifact)
    (hf : SortSliceImpl f) (arts : List Artifact)
    (htie : 2 ≤ (arts.filter fun a =>
      decide (∀ b ∈ arts, b.createdAt ≤ a.createdAt)).length) :
    ∃ m, theNewestArtifact f arts = some m ∧ m ∈ arts ∧
      ∀ a ∈ arts, a.createdAt ≤ m.createdAt := by
  have hsr := hf arts
  cases hout : f arts with
  | nil =>
    exfalso
    have hnil : arts = [] := by
      have := hsr.1
      rw [hout] at this
      exact this.symm.eq_nil
    rw [hnil] at htie
    simp at htie
  | cons m t =>
    obtain ⟨hm, hmax⟩ := sortSliceResult_head_max arts (f arts) hsr m t hout
    exact ⟨m, by simp [theNewestArtifact, hout], hm, hmax⟩

/-- Witness for the amended C5: two artifacts tied at timestamp 7. -/
theorem c5_tie_selection_max_witness :
    ∃ m, theNewestArtifact refSort l5w = some m ∧ m ∈ l5w ∧
      ∀ a ∈ l5w, a.createdAt ≤ m.createdAt :=
  c5_tie_selection_max refSort refSort_ok l5w (by decide)

/-- C6 (the code, not the claim): when enumeration completes with an
empty collection, the run reaches the selection stage (the `sortSelect`
event is in the trace) and terminates with the uncontrolled
index-out-of-range fault of `artifacts[0]` — exit status 2, not a
`log.Fatalf`-reported error — though no download or extraction event ever
occurs. -/
theorem c6_empty_collection_fault :
    runMain refSort env6 =
      (Outcome.panicIndexOutOfRange,
        [Event.listRequest 1 100, Event.sortSelect]) ∧
    exitCode (runMain refSort env6).1 = some 2 ∧
    ∀ msg, (runMain refSort env6).1 ≠ Outcome.fatal msg := by
  refine ⟨by decide, by decide, fun msg h => ?_⟩
  rw [(by decide : runMain refSort env6 =
    (Outcome.panicIndexOutOfRange,
      [Event.listRequest 1 100, Event.sortSelect]))] at h
  exact Outcome.noConfusion h

theorem extractEntries_step (e : ZipEntry) (rest : List ZipEntry)
    (trace : List Event) (defers : List (List Event))
    (ho : e.openErr = none) (hc : e.createErr = none) :
    extractEntries (e :: rest) trace defers =
      extractEntries rest
        (trace ++ [Event.openEntry e.name, Event.createDst e.name,
          Event.writeDst e.name e.written])
        (defers ++ [[Event.closeSrc e.name], [Event.closeDst e.name]]) := by
  simp [extractEntries, ho, hc]

theorem extractEntries_defers_extends (entries : List ZipEntry) :
    ∀ (trace : List Event) (defers : List (List Event)),
      ∃ extra, (extractEntries entries trace defers).2.2 = defers ++ extra := by
  induction entries with
  | nil => intro trace defers; exact ⟨[], by simp [extractEntries]⟩
  | cons e rest ih =>
    intro trace defers
    cases ho : e.openErr with
    | some err => exact ⟨[], by simp [extractEntries, ho]⟩
    | none =>
      cases hc : e.createErr with
      | some err =>
        exact ⟨[[Event.closeSrc e.name]], by simp [extractEntries, ho, hc]⟩
      | none =>
        obtain ⟨extra, hx⟩ := ih
          (trace ++ [Event.openEntry e.name, Event.createDst e.name,
            Event.writeDst e.name e.written])
          (defers ++ [[Event.closeSrc e.name], [Event.closeDst e.name]])
        refine ⟨[[Event.closeSrc e.name], [Event.closeDst e.name]] ++ extra, ?_⟩
        rw [extractEntries_step e rest trace defers ho hc, hx]
        simp [List.append_assoc]

theorem mem_reverse_flatten_of_mem {x : Event} {l : List Event}
    {ds : List (List Event)} (hl : l ∈ ds) (hx : x ∈ l) :
    x ∈ ds.reverse.flatten :=
  List.mem_flatten.mpr ⟨l, List.mem_reverse.mpr hl, hx⟩

theorem extractEntries_defers_extends2 (entries : List ZipEntry)
    (trace : List Event) (defers : List (List Event))
    (res : Option String × List Event × List (List Event))
    (hres : extractEntries entries trace defers = res) :
    ∃ extra, res.2.2 = defers ++ extra :=
  hres ▸ extractEntries_defers_extends entries trace defers

/-- C7 as amended: scoped cleanup runs only when `main` returns normally.
On the success exit path the response body is closed and the temp file is
closed and removed (the deferred cleanup is flushed before the process
terminates); the counterexample shows the fatal paths skip it. -/
theorem c7_success_cleanup (f : List Artifact → List Artifact) (env : Env)
    (trace : List Event) (h : runMain f env = (Outcome.success, trace)) :
    Event.closeBody ∈ trace ∧ Event.closeTemp ∈ trace ∧
      Event.removeTemp ∈ trace := by
  unfold runMain at h
  split at h
  · simp at h
  · split at h
    · simp at h
    · simp at h
    · try dsimp only at h
      split at h
      · simp at h
      · try dsimp only at h
        split at h
        · simp at h
        · try dsimp only at h
          split at h
          · simp at h
          · try dsimp only at h
            split at h
            · simp at h
            · try dsimp only at h
              split at h
              · simp at h
              · try dsimp only at h
                split at h
                · simp at h
                · try dsimp only at h
                  split at h
                  · simp at h
                  next trace6 defers4 heq =>
                    simp only [Prod.mk.injEq, true_and] at h
                    subst h
                    obtain ⟨extra, hx⟩ :=
                      extractEntries_defers_extends2 _ _ _ _ heq
                    dsimp only at hx
                    subst hx
                    refine ⟨List.mem_append_right _ ?_,
                      List.mem_append_right _ ?_, List.mem_append_right _ ?_⟩
                    · exact @mem_reverse_flatten_of_mem Event.closeBody
                        [Event.closeBody] _ (by simp) (by simp)
                    · exact @mem_reverse_flatten_of_mem Event.closeTemp
                        [Event.closeTemp, Event.removeTemp] _ (by simp) (by simp)
                    · exact @mem_reverse_flatten_of_mem Event.removeTemp
                        [Event.closeTemp, Event.removeTemp] _ (by simp) (by simp)

/-- Witness for the amended C7: a fully successful run closes and removes
the temp file and closes the response body. -/
theorem c7_success_cleanup_witness :
    Event.closeBody ∈ (runMain refSort env7w).2 ∧
    Event.closeTemp ∈ (runMain refSort env7w).2 ∧
    Event.removeTemp ∈ (runMain refSort env7w).2 :=
  c7_success_cleanup refSort env7w (runMain refSort env7w).2 (by decide)

/-- Counterexample to C7: in `env7` the temp file has been created
(`createTemp` is in the trace and its creation succeeded) and the run
aborts at the body copy — yet the trace contains no `removeTemp`, no
`closeTemp` and no `closeBody`: `log.Fatalf` calls `os.Exit`, which skips
every deferred cleanup, so the temp file is left behind and the response
body is never closed on this exit path. -/
theorem c7_fatal_skips_cleanup_counterexample :
    (runMain refSort env7).1 =
      Outcome.fatal "unable to copy response body to file. detail: io boom" ∧
    env7.createTempErr = none ∧
    Event.createTemp ∈ (runMain refSort env7).2 ∧
    Event.removeTemp ∉ (runMain refSort env7).2 ∧
    Event.closeTemp ∉ (runMain refSort env7).2 ∧
    Event.closeBody ∉ (runMain refSort env7).2 := by
  refine ⟨by decide, rfl, by decide, by decide, by decide, by decide⟩

/-- C8: a run whose downloaded archive is a valid zip parsing to exactly
the entries `a.txt` ("hello") and `b/c.txt` ("world") completes
successfully, and extraction writes exactly those two relative paths with
byte-identical contents, in archive order. -/
theorem c8_roundtrip_extraction :
    (runMain refSort env8).1 = Outcome.success ∧
    writesOf (runMain refSort env8).2 =
      [("a.txt", "hello"), ("b/c.txt", "world")] := by
  refine ⟨by decide, by decide⟩

theorem writesOf_append (a b : List Event) :
    writesOf (a ++ b) = writesOf a ++ writesOf b :=
  List.filterMap_append a b _

theorem extractEntries_ignores_copy_errors (entries : List ZipEntry) :
    ∀ (trace : List Event) (defers : List (List Event)),
      (∀ e ∈ entries, e.openErr = none ∧ e.createErr = none) →
      writesOf defers.reverse.flatten = [] →
      (extractEntries entries trace defers).1 = none ∧
      writesOf ((extractEntries entries trace defers).2.1
          ++ (extractEntries entries trace defers).2.2.reverse.flatten) =
        writesOf trace ++ entries.map fun e => (e.name, e.written) := by
  induction entries with
  | nil =>
    intro trace defers _ hd
    refine ⟨rfl, ?_⟩
    rw [show extractEntries [] trace defers = (none, trace, defers) from rfl]
    dsimp only
    rw [writesOf_append, hd]
    simp
  | cons e rest ih =>
    intro trace defers h hd
    have he := h e (List.mem_cons_self e rest)
    rw [extractEntries_step e rest trace defers he.1 he.2]
    have hd2 : writesOf (defers ++
        [[Event.closeSrc e.name], [Event.closeDst e.name]]).reverse.flatten
        = [] := by
      rw [List.reverse_append, List.flatten_append, writesOf_append, hd]
      rfl
    obtain ⟨ih1, ih2⟩ := ih
      (trace ++ [Event.openEntry e.name, Event.createDst e.name,
        Event.writeDst e.name e.written])
      (defers ++ [[Event.closeSrc e.name], [Event.closeDst e.name]])
      (fun x hx => h x (List.mem_cons_of_mem e hx)) hd2
    refine ⟨ih1, ?_⟩
    rw [ih2, writesOf_append]
    rw [show writesOf [Event.openEntry e.name, Event.createDst e.name,
      Event.writeDst e.name e.written] = [(e.name, e.written)] from rfl]
    simp

/-- C10: the return values of the per-entry `io.Copy(dst, src)` call are
discarded.  Whenever every destination file can be created, the run
succeeds with exit status 0 no matter which copies fail or are cut short:
extraction continues through the remaining entries and the files end up
holding exactly whatever bytes each copy managed to transfer (possibly a
truncated prefix). -/
theorem c10_copy_error_discarded (entries : List ZipEntry)
    (h : ∀ e ∈ entries, e.openErr = none ∧ e.createErr = none) :
    (runMain refSort (envWithEntries entries)).1 = Outcome.success ∧
    exitCode (runMain refSort (envWithEntries entries)).1 = some 0 ∧
    writesOf (runMain refSort (envWithEntries entries)).2 =
      entries.map fun e => (e.name, e.written) := by
  have hred : runMain refSort (envWithEntries entries) =
      (match extractEntries entries preExtractTrace preExtractDefers with
       | (some msg, trace6, _) => (Outcome.fatal msg, trace6)
       | (none, trace6, defers4) =>
         (Outcome.success, trace6 ++ defers4.reverse.flatten)) := rfl
  obtain ⟨h1, h2⟩ := extractEntries_ignores_copy_errors entries
    preExtractTrace preExtractDefers h rfl
  rcases hE : extractEntries entries preExtractTrace preExtractDefers
    with ⟨fst, tr, ds⟩
  rw [hE] at h1 h2 hred
  dsimp only at h1 h2
  subst h1
  dsimp only at hred
  rw [hred]
  refine ⟨rfl, rfl, ?_⟩
  dsimp only
  rw [h2]
  rfl

/-- Witness for C10: the first entry's copy fails after three of five
bytes, the error is discarded, the second entry is still extracted, and
the process exits with status 0 leaving the truncated `a.txt`. -/
theorem c10_copy_error_discarded_witness :
    (runMain refSort (envWithEntries entries10)).1 = Outcome.success ∧
    exitCode (runMain refSort (envWithEntries entries10)).1 = some 0 ∧
    writesOf (runMain refSort (envWithEntries entries10)).2 =
      [("a.txt", "hel"), ("b.txt", "world")] :=
  have h := c10_copy_error_discarded entries10 (by decide)
  ⟨h.1, h.2.1, h.2.2.trans (by decide)⟩
